import Mathlib

/-!
Verification development for the body-streaming core of the `hreq` HTTP
library (`src/body_codec.rs`).  The definitions below are a shallow
embedding of `BodyReader`, `BodyCodec` and `H2BytesReader` together with
the five `BodyImpl` source variants.  External collaborators that are not
part of this repository's core (the operating-system readers, the h2 and
hreq-h1 receive streams, the `UninitBuf` growable buffer and the
`BandwidthMonitor`) are modelled as explicit data: a source is a list of
poll results, a fill slab size is a schedule entry, and the bandwidth and
flow-control observers are recording logs.
-/

namespace HreqBody

/-- A byte, abstracted as a natural number. -/
abbrev Byte := Nat

/-- The error kinds this core distinguishes: a would-block condition and
every other I/O error (carrying an opaque tag). -/
inductive IOErr where
  | wouldBlock
  | other (tag : Nat)
deriving DecidableEq, Repr

/-- One poll result of an asynchronous byte source (async reader, HTTP/1
receive stream, or an HTTP/2 data-frame stream): a chunk of bytes, an
I/O failure, or a not-ready (Poll::Pending) signal. -/
inductive SrcItem where
  | chunk (bytes : List Byte)
  | fail (e : IOErr)
  | pend
deriving DecidableEq, Repr

/-- One read result of a synchronous byte source (std::io::Read): a chunk
of bytes or an I/O failure.  A synchronous reader has no pending state. -/
inductive SyncItem where
  | chunk (bytes : List Byte)
  | fail (e : IOErr)
deriving DecidableEq, Repr

/-- The five Body Source variants of `BodyImpl` in body_codec.rs.  Each
stream-backed variant carries the remaining poll results its external
stream will produce. -/
inductive BodyImpl where
  | requestEmpty
  | requestAsyncRead (items : List SrcItem)
  | requestRead (items : List SyncItem)
  | http1 (items : List SrcItem)
  | http2 (frames : List SrcItem)
deriving DecidableEq, Repr

/-- `H2BytesReader` from body_codec.rs: one received HTTP/2 chunk
(`data`) plus the offset (`pos`) of the first byte not yet copied out. -/
structure H2BytesReader where
  data : List Byte
  pos : Nat
deriving DecidableEq, Repr

/-- `H2BytesReader::len`: the number of bytes not yet copied out. -/
def H2BytesReader.len (b : H2BytesReader) : Nat := b.data.length - b.pos

/-- `H2BytesReader::read`: copies `min bufsize len` bytes starting at
`pos` into the caller's buffer and advances `pos`; returns the amount,
the bytes copied, and the updated reader. -/
def H2BytesReader.read (b : H2BytesReader) (bufsize : Nat) :
    Nat × List Byte × H2BytesReader :=
  if b.len = 0 then (0, [], b)
  else
    let amt := min bufsize b.len
    (amt, (b.data.drop b.pos).take amt, ⟨b.data, b.pos + amt⟩)

/-- The result of one polled operation: success, an I/O error, a
suspension (Poll::Pending), or a fatal panic. -/
inductive Outcome (α : Type) where
  | ok (v : α)
  | ioError (e : IOErr)
  | pending
  | panicked
deriving DecidableEq, Repr

/-- The `BodyReader` state from body_codec.rs.  `buffer` is the filled
content of the internal `UninitBuf`; `bwLog` records every
`append_read_bytes` call made on the bandwidth monitor (when `hasBw`);
`creditLog` records every `release_capacity` call made on the HTTP/2
flow-control handle.  The two logs model the external observers, which
are not part of this core. -/
structure BodyReader where
  imp : BodyImpl
  prebuffer_to : Nat
  buffer : List Byte
  consumed : Nat
  h2_leftover_bytes : Option H2BytesReader
  is_finished : Bool
  hasBw : Bool
  bwLog : List Nat
  creditLog : List Nat
deriving DecidableEq, Repr

/-- `MAX_PREBUFFER` from body_codec.rs. -/
def MAX_PREBUFFER : Nat := 256 * 1024

/-- `BodyReader::new`. -/
def BodyReader.new (imp : BodyImpl) (prebuffer : Bool) : BodyReader :=
  { imp
    prebuffer_to := if prebuffer then MAX_PREBUFFER else 0
    buffer := []
    consumed := 0
    h2_leftover_bytes := none
    is_finished := false
    hasBw := false
    bwLog := []
    creditLog := [] }

/-- `BodyReader::unconsumed`: the buffer slice from `consumed` on. -/
def BodyReader.unconsumed (s : BodyReader) : List Byte :=
  s.buffer.drop s.consumed

/-- `BodyReader::unconsumed_len`: `buffer.len() - consumed`. -/
def BodyReader.unconsumed_len (s : BodyReader) : Nat :=
  s.buffer.length - s.consumed

/-- One read of the front of an asynchronous item stream, as the
`poll_read`/`poll_data` calls in `poll_read_underlying` see it: an empty
stream yields a zero read (end of stream); a pending item suspends; a
failing item raises its error; a chunk yields up to `bufsize` of its
bytes, any remainder staying at the front of the stream. -/
def readItems (items : List SrcItem) (bufsize : Nat) :
    Outcome (Nat × List Byte) × List SrcItem :=
  match items with
  | [] => (.ok (0, []), [])
  | .pend :: rest => (.pending, rest)
  | .fail e :: rest => (.ioError e, rest)
  | .chunk c :: rest =>
      let amt := min bufsize c.length
      if amt < c.length then (.ok (amt, c.take amt), .chunk (c.drop amt) :: rest)
      else (.ok (amt, c.take amt), rest)

/-- One read of the front of a synchronous item stream, as
`reader.read(buf)` sees it in `poll_read_underlying`. -/
def readSyncItems (items : List SyncItem) (bufsize : Nat) :
    Except IOErr (Nat × List Byte) × List SyncItem :=
  match items with
  | [] => (.ok (0, []), [])
  | .fail e :: rest => (.error e, rest)
  | .chunk c :: rest =>
      let amt := min bufsize c.length
      if amt < c.length then (.ok (amt, c.take amt), .chunk (c.drop amt) :: rest)
      else (.ok (amt, c.take amt), rest)

/-- The epilogue of `BodyReader::poll_read_underlying` for a source read
that completed (the `if amount == 0` and bandwidth-monitor lines): a
zero amount marks the reader finished, and the amount is reported to the
bandwidth monitor when one is set.  Errors, pending polls and panics
bypass it, as the early returns in the source do. -/
def finishStep :
    Outcome (Nat × List Byte) × BodyReader → Outcome (Nat × List Byte) × BodyReader
  | (.ok ab, s') =>
      let s2 := if ab.1 = 0 then { s' with is_finished := true } else s'
      let s3 := if s2.hasBw then { s2 with bwLog := s2.bwLog ++ [ab.1] } else s2
      (.ok ab, s3)
  | other => other

/-- The source-variant dispatch inside `BodyReader::poll_read_underlying`
(the `let amount = match &mut self.imp` expression): polls the Body
Source once with a destination buffer of size `bufsize`.  A fresh HTTP/2
chunk releases flow-control credit for its full length and parks any
residue in the leftover reader; a synchronous would-block error is the
fatal misuse panic. -/
def BodyReader.source_step (s : BodyReader) (bufsize : Nat) :
    Outcome (Nat × List Byte) × BodyReader :=
  match s.imp with
  | .requestEmpty => (.ok (0, []), s)
  | .requestAsyncRead items =>
      let r := readItems items bufsize
      (r.1, { s with imp := .requestAsyncRead r.2 })
  | .requestRead items =>
      match readSyncItems items bufsize with
      | (.error e, rest) =>
          if e = .wouldBlock then (.panicked, { s with imp := .requestRead rest })
          else (.ioError e, { s with imp := .requestRead rest })
      | (.ok ab, rest) => (.ok ab, { s with imp := .requestRead rest })
  | .http1 items =>
      let r := readItems items bufsize
      (r.1, { s with imp := .http1 r.2 })
  | .http2 frames =>
      match frames with
      | [] => (.ok (0, []), { s with imp := .http2 [] })
      | .pend :: rest => (.pending, { s with imp := .http2 rest })
      | .fail e :: rest => (.ioError e, { s with imp := .http2 rest })
      | .chunk data :: rest =>
          let s1 := { s with imp := .http2 rest,
                             creditLog := s.creditLog ++ [data.length] }
          let br : H2BytesReader := ⟨data, 0⟩
          let r := br.read bufsize
          let s2 := if r.2.2.len > 0
                    then { s1 with h2_leftover_bytes := some r.2.2 }
                    else s1
          (.ok (r.1, r.2.1), s2)

/-- `BodyReader::poll_read_underlying` from body_codec.rs, for one poll
with a destination buffer of size `bufsize`.  Mirrors the source: an
already-finished reader returns a zero read; an HTTP/2 leftover chunk is
drained first (with an early return that skips the finished-flag and
bandwidth bookkeeping in `finishStep`); otherwise the source variant is
polled, a fresh HTTP/2 chunk releases flow-control credit for its full
length and parks any residue in the leftover reader, and a synchronous
would-block error panics. -/
def BodyReader.poll_read_underlying (s : BodyReader) (bufsize : Nat) :
    Outcome (Nat × List Byte) × BodyReader :=
  if s.is_finished then (.ok (0, []), s)
  else
    match s.h2_leftover_bytes with
    | some br =>
        let r := br.read bufsize
        let s' := { s with h2_leftover_bytes :=
                      if r.2.2.len = 0 then none else some r.2.2 }
        (.ok (r.1, r.2.1), s')
    | none => finishStep (s.source_step bufsize)

/-- The loop body of `BodyReader::poll_refill_buf`: repeatedly checks the
stop condition (finished, or prebuffering active and the buffer length
equal to the prebuffer target, or prebuffering inactive and the buffer
nonempty), resetting the prebuffer target on the way out; otherwise
delegates one read of the next schedule entry's slab size into the
buffer's spare capacity.  An exhausted schedule stands for a fill that
has not yet produced a result and is reported as pending. -/
def BodyReader.refill_loop (s : BodyReader) (sched : List Nat) :
    Outcome Unit × BodyReader :=
  let read_enough :=
    (decide (s.prebuffer_to > 0) && decide (s.buffer.length = s.prebuffer_to))
    || (decide (s.prebuffer_to = 0) && decide (s.buffer.length > 0))
  if s.is_finished || read_enough then
    (.ok (), { s with prebuffer_to := 0 })
  else
    match sched with
    | [] => (.pending, s)
    | k :: ks =>
      match s.poll_read_underlying k with
      | (.ok ab, s') =>
          BodyReader.refill_loop { s' with buffer := s'.buffer ++ ab.2 } ks
      | (.ioError e, s') => (.ioError e, s')
      | (.pending, s') => (.pending, s')
      | (.panicked, s') => (.panicked, s')

/-- `BodyReader::poll_refill_buf`: a no-op when unconsumed bytes remain,
otherwise resets the cursor, clears the buffer and runs the refill
loop. -/
def BodyReader.poll_refill_buf (s : BodyReader) (sched : List Nat) :
    Outcome Unit × BodyReader :=
  if s.unconsumed_len > 0 then (.ok (), s)
  else BodyReader.refill_loop { s with consumed := 0, buffer := [] } sched

/-- The awaited `poll_fn` loop inside `BodyReader::attempt_prebuffer`:
each element of `polls` is the slab-size schedule of one poll of
`poll_refill_buf`; a pending poll suspends and is re-polled with the next
schedule. -/
def BodyReader.attempt_prebuffer_aux (s : BodyReader) :
    List (List Nat) → Outcome Unit × BodyReader
  | [] => (.pending, s)
  | sched :: more =>
      match s.poll_refill_buf sched with
      | (.pending, s') => BodyReader.attempt_prebuffer_aux s' more
      | other => other

/-- `BodyReader::attempt_prebuffer`: drives `poll_refill_buf` to
completion and returns the total buffered length exactly when the reader
is finished afterwards. -/
def BodyReader.attempt_prebuffer (s : BodyReader) (polls : List (List Nat)) :
    Outcome (Option Nat) × BodyReader :=
  match BodyReader.attempt_prebuffer_aux s polls with
  | (.ok _, s') =>
      (.ok (if s'.is_finished then some s'.buffer.length else none), s')
  | (.ioError e, s') => (.ioError e, s')
  | (.pending, s') => (.pending, s')
  | (.panicked, s') => (.panicked, s')

/-- `consume` from the AsyncBufRead impl of `BodyReader`: advances the
cursor and asserts that it has not passed the buffer length. -/
def BodyReader.consume (s : BodyReader) (amt : Nat) :
    Outcome Unit × BodyReader :=
  let s' := { s with consumed := s.consumed + amt }
  if s'.consumed ≤ s'.buffer.length then (.ok (), s') else (.panicked, s')

/-- `poll_fill_buf` from the AsyncBufRead impl of `BodyReader`. -/
def BodyReader.poll_fill_buf (s : BodyReader) (sched : List Nat) :
    Outcome (List Byte) × BodyReader :=
  match s.poll_refill_buf sched with
  | (.ok _, s') => (.ok s'.unconsumed, s')
  | (.ioError e, s') => (.ioError e, s')
  | (.pending, s') => (.pending, s')
  | (.panicked, s') => (.panicked, s')

/-- The tail of `BodyReader::poll_read` after the refill decision:
`unconsumed().read(buf)` copies `min bufsize unconsumed_len` bytes out
and `consume` advances the cursor by that amount. -/
def BodyReader.read_from_buffer (s : BodyReader) (bufsize : Nat) :
    Outcome (List Byte) × BodyReader :=
  let out := s.unconsumed.take bufsize
  match s.consume out.length with
  | (.ok _, s') => (.ok out, s')
  | (.ioError e, s') => (.ioError e, s')
  | (.pending, s') => (.pending, s')
  | (.panicked, s') => (.panicked, s')

/-- `poll_read` from the AsyncRead impl of `BodyReader`: drains the
internal buffer, refilling it first when it is empty and the reader is
not finished; a finished reader with an empty buffer returns a zero
read. -/
def BodyReader.poll_read (s : BodyReader) (bufsize : Nat) (sched : List Nat) :
    Outcome (List Byte) × BodyReader :=
  if s.unconsumed_len = 0 then
    if s.is_finished then (.ok [], s)
    else
      match s.poll_refill_buf sched with
      | (.ok _, s') => s'.read_from_buffer bufsize
      | (.ioError e, s') => (.ioError e, s')
      | (.pending, s') => (.pending, s')
      | (.panicked, s') => (.panicked, s')
  else s.read_from_buffer bufsize

/-- The `BodyCodec` state from body_codec.rs.  The gzip transform layers
come from the external async-compression crate; for the state-dispatch
behavior the claims concern, each is modelled as the Body Reader it
wraps. -/
inductive BodyCodec where
  | deferred (r : Option BodyReader)
  | pass (r : BodyReader)
  | gzipDecoder (r : BodyReader)
  | gzipEncoder (r : BodyReader)
deriving DecidableEq, Repr

/-- `BodyCodec::deferred`. -/
def BodyCodec.mk_deferred (bimp : BodyImpl) (prebuffer : Bool) : BodyCodec :=
  .deferred (some (BodyReader.new bimp prebuffer))

/-- `BodyCodec::from_encoding`: no encoding name yields Pass; the
recognized compressor name selects Decode on the incoming path and
Encode on the outgoing path; any other name falls through the wildcard
arm to Pass. -/
def BodyCodec.from_encoding (reader : BodyReader) (encoding : Option String)
    (is_incoming : Bool) : BodyCodec :=
  match encoding, is_incoming with
  | none, _ => .pass reader
  | some enc, inc =>
      if enc = "gzip" then
        (if inc then .gzipDecoder reader else .gzipEncoder reader)
      else .pass reader

/-- Whether `BodyCodec::from_encoding` takes the wildcard arm that logs
the unknown-content-encoding warning. -/
def BodyCodec.from_encoding_warns (encoding : Option String)
    (_is_incoming : Bool) : Bool :=
  match encoding with
  | none => false
  | some enc => decide (enc ≠ "gzip")

/-- `BodyCodec::affects_content_size`. -/
def BodyCodec.affects_content_size : BodyCodec → Bool
  | .deferred _ => false
  | .pass _ => false
  | .gzipDecoder _ => true
  | .gzipEncoder _ => true

/-- `poll_read` from the AsyncRead impl of `BodyCodec`: panics on a
Deferred codec, otherwise delegates to the wrapped reader. -/
def BodyCodec.poll_read (c : BodyCodec) (bufsize : Nat) (sched : List Nat) :
    Outcome (List Byte) × BodyCodec :=
  match c with
  | .deferred r => (.panicked, .deferred r)
  | .pass r => let p := r.poll_read bufsize sched; (p.1, .pass p.2)
  | .gzipDecoder r => let p := r.poll_read bufsize sched; (p.1, .gzipDecoder p.2)
  | .gzipEncoder r => let p := r.poll_read bufsize sched; (p.1, .gzipEncoder p.2)

/-- `poll_fill_buf` from the AsyncBufRead impl of `BodyCodec`. -/
def BodyCodec.poll_fill_buf (c : BodyCodec) (sched : List Nat) :
    Outcome (List Byte) × BodyCodec :=
  match c with
  | .deferred r => (.panicked, .deferred r)
  | .pass r => let p := r.poll_fill_buf sched; (p.1, .pass p.2)
  | .gzipDecoder r => let p := r.poll_fill_buf sched; (p.1, .gzipDecoder p.2)
  | .gzipEncoder r => let p := r.poll_fill_buf sched; (p.1, .gzipEncoder p.2)

/-- `consume` from the AsyncBufRead impl of `BodyCodec`. -/
def BodyCodec.consume (c : BodyCodec) (amt : Nat) :
    Outcome Unit × BodyCodec :=
  match c with
  | .deferred r => (.panicked, .deferred r)
  | .pass r => let p := r.consume amt; (p.1, .pass p.2)
  | .gzipDecoder r => let p := r.consume amt; (p.1, .gzipDecoder p.2)
  | .gzipEncoder r => let p := r.consume amt; (p.1, .gzipEncoder p.2)

/-- The bytes an asynchronous item stream still has to produce. -/
def srcItemsBytes : List SrcItem → List Byte
  | [] => []
  | .chunk c :: rest => c ++ srcItemsBytes rest
  | .fail _ :: rest => srcItemsBytes rest
  | .pend :: rest => srcItemsBytes rest

/-- The bytes a synchronous item stream still has to produce. -/
def syncItemsBytes : List SyncItem → List Byte
  | [] => []
  | .chunk c :: rest => c ++ syncItemsBytes rest
  | .fail _ :: rest => syncItemsBytes rest

/-- The bytes a Body Source still has to produce. -/
def BodyImpl.remainingBytes : BodyImpl → List Byte
  | .requestEmpty => []
  | .requestAsyncRead items => srcItemsBytes items
  | .requestRead items => syncItemsBytes items
  | .http1 items => srcItemsBytes items
  | .http2 frames => srcItemsBytes frames

/-- The lengths of the HTTP/2 data chunks an item stream still has to
produce. -/
def srcFrameLens : List SrcItem → List Nat
  | [] => []
  | .chunk c :: rest => c.length :: srcFrameLens rest
  | .fail _ :: rest => srcFrameLens rest
  | .pend :: rest => srcFrameLens rest

/-- The lengths of the data chunks a Body Source still has to produce;
meaningful for the HTTP/2 variant, empty elsewhere. -/
def BodyImpl.frameLens : BodyImpl → List Nat
  | .http2 frames => srcFrameLens frames
  | _ => []

/-- The bytes held by an optional leftover chunk reader. -/
def leftoverBytes : Option H2BytesReader → List Byte
  | none => []
  | some br => br.data.drop br.pos

/-- The bytes a reader has obtained from its source but not yet handed
to the caller, plus everything the source still has to produce:
unconsumed buffer content, leftover-chunk content, remaining source
content, in delivery order. -/
def BodyReader.pendingBytes (s : BodyReader) : List Byte :=
  s.unconsumed ++ leftoverBytes s.h2_leftover_bytes ++ s.imp.remainingBytes

/-- The bytes delivered by one underlying-read outcome. -/
def deliveredU : Outcome (Nat × List Byte) → List Byte
  | .ok ab => ab.2
  | _ => []

/-- The bytes delivered by one poll_read outcome. -/
def deliveredL : Outcome (List Byte) → List Byte
  | .ok bs => bs
  | _ => []

/-- The bytes delivered by one synchronous read result. -/
def deliveredE : Except IOErr (Nat × List Byte) → List Byte
  | .ok ab => ab.2
  | .error _ => []

/-- A sequence of `poll_read` calls, each with a caller buffer size and
a refill slab-size schedule; returns the concatenation of all delivered
byte slices and the final reader state. -/
def BodyReader.runReads (s : BodyReader) :
    List (Nat × List Nat) → List Byte × BodyReader
  | [] => ([], s)
  | (bufsize, sched) :: calls =>
      let p := s.poll_read bufsize sched
      let rest := p.2.runReads calls
      (deliveredL p.1 ++ rest.1, rest.2)

end HreqBody

namespace HreqBody

theorem take_then_drop_length (l : List Byte) (b : Nat) :
    l.take b ++ l.drop (l.take b).length = l := by
  rw [List.length_take]
  rcases Nat.le_total b l.length with h | h
  · rw [Nat.min_eq_left h, List.take_append_drop]
  · rw [Nat.min_eq_right h, List.take_of_length_le h, List.drop_length,
      List.append_nil]

theorem readItems_conserves (items : List SrcItem) (k : Nat) :
    deliveredU (readItems items k).1 ++ srcItemsBytes (readItems items k).2
      = srcItemsBytes items := by
  match items with
  | [] => simp [readItems, deliveredU, srcItemsBytes]
  | .pend :: rest => simp [readItems, deliveredU, srcItemsBytes]
  | .fail e :: rest => simp [readItems, deliveredU, srcItemsBytes]
  | .chunk c :: rest =>
      simp only [readItems]
      split
      · simp only [deliveredU, srcItemsBytes, ← List.append_assoc,
          List.take_append_drop]
      · next h =>
          have hc : c.length ≤ min k c.length := by omega
          simp [deliveredU, srcItemsBytes, List.take_of_length_le hc]

theorem readSyncItems_conserves (items : List SyncItem) (k : Nat) :
    deliveredE (readSyncItems items k).1 ++ syncItemsBytes (readSyncItems items k).2
      = syncItemsBytes items := by
  match items with
  | [] => simp [readSyncItems, deliveredE, syncItemsBytes]
  | .fail e :: rest => simp [readSyncItems, deliveredE, syncItemsBytes]
  | .chunk c :: rest =>
      simp only [readSyncItems]
      split
      · simp only [deliveredE, syncItemsBytes, ← List.append_assoc,
          List.take_append_drop]
      · next h =>
          have hc : c.length ≤ min k c.length := by omega
          simp [deliveredE, syncItemsBytes, List.take_of_length_le hc]

theorem finishStep_fields (p : Outcome (Nat × List Byte) × BodyReader) :
    (finishStep p).1 = p.1 ∧
    (finishStep p).2.imp = p.2.imp ∧
    (finishStep p).2.buffer = p.2.buffer ∧
    (finishStep p).2.consumed = p.2.consumed ∧
    (finishStep p).2.prebuffer_to = p.2.prebuffer_to ∧
    (finishStep p).2.hasBw = p.2.hasBw ∧
    (finishStep p).2.h2_leftover_bytes = p.2.h2_leftover_bytes ∧
    (finishStep p).2.creditLog = p.2.creditLog := by
  rcases p with ⟨o, s⟩
  cases o <;> simp only [finishStep] <;>
    first
      | (constructor <;> simp)
      | (split <;> split <;> simp_all)


theorem poll_read_underlying_facts (s : BodyReader) (k : Nat) :
    (deliveredU (s.poll_read_underlying k).1 ++
        (leftoverBytes (s.poll_read_underlying k).2.h2_leftover_bytes ++
          (s.poll_read_underlying k).2.imp.remainingBytes)
      = leftoverBytes s.h2_leftover_bytes ++ s.imp.remainingBytes)
    ∧ (s.poll_read_underlying k).2.buffer = s.buffer
    ∧ (s.poll_read_underlying k).2.consumed = s.consumed
    ∧ (s.poll_read_underlying k).2.prebuffer_to = s.prebuffer_to
    ∧ (s.poll_read_underlying k).2.hasBw = s.hasBw
    ∧ ((s.poll_read_underlying k).2.creditLog ++
        (s.poll_read_underlying k).2.imp.frameLens
      = s.creditLog ++ s.imp.frameLens) := by
  by_cases hfin : s.is_finished
  · simp [BodyReader.poll_read_underlying, BodyReader.source_step, hfin, deliveredU]
  · rcases hlo : s.h2_leftover_bytes with _ | ⟨data, pos⟩
    · rcases himp : s.imp with _ | items | items | items | frames
      · by_cases hw : s.hasBw <;>
          simp [BodyReader.poll_read_underlying, BodyReader.source_step, hfin, hlo, himp, finishStep,
            hw, deliveredU, leftoverBytes, BodyImpl.remainingBytes,
            BodyImpl.frameLens]
      · have hr := readItems_conserves items k
        rcases hro : readItems items k with ⟨o, rest⟩
        rw [hro] at hr
        cases o with
        | ok ab =>
          by_cases hz : ab.1 = 0 <;> by_cases hw : s.hasBw <;>
            simp_all [BodyReader.poll_read_underlying, BodyReader.source_step, hfin, hlo, himp, hro,
              finishStep, deliveredU, leftoverBytes, BodyImpl.remainingBytes,
              BodyImpl.frameLens]
        | ioError e =>
          simp_all [BodyReader.poll_read_underlying, BodyReader.source_step, hfin, hlo, himp, hro,
            finishStep, deliveredU, leftoverBytes, BodyImpl.remainingBytes,
            BodyImpl.frameLens]
        | pending =>
          simp_all [BodyReader.poll_read_underlying, BodyReader.source_step, hfin, hlo, himp, hro,
            finishStep, deliveredU, leftoverBytes, BodyImpl.remainingBytes,
            BodyImpl.frameLens]
        | panicked =>
          simp_all [BodyReader.poll_read_underlying, BodyReader.source_step, hfin, hlo, himp, hro,
            finishStep, deliveredU, leftoverBytes, BodyImpl.remainingBytes,
            BodyImpl.frameLens]
      · have hr := readSyncItems_conserves items k
        rcases hro : readSyncItems items k with ⟨o, rest⟩
        rw [hro] at hr
        cases o with
        | ok ab =>
          by_cases hz : ab.1 = 0 <;> by_cases hw : s.hasBw <;>
            simp_all [BodyReader.poll_read_underlying, BodyReader.source_step, hfin, hlo, himp, hro,
              finishStep, deliveredU, deliveredE, leftoverBytes,
              BodyImpl.remainingBytes, BodyImpl.frameLens]
        | error e =>
          by_cases he : e = IOErr.wouldBlock <;>
            simp_all [BodyReader.poll_read_underlying, BodyReader.source_step, hfin, hlo, himp, hro,
              finishStep, deliveredU, deliveredE, leftoverBytes,
              BodyImpl.remainingBytes, BodyImpl.frameLens]
      · have hr := readItems_conserves items k
        rcases hro : readItems items k with ⟨o, rest⟩
        rw [hro] at hr
        cases o with
        | ok ab =>
          by_cases hz : ab.1 = 0 <;> by_cases hw : s.hasBw <;>
            simp_all [BodyReader.poll_read_underlying, BodyReader.source_step, hfin, hlo, himp, hro,
              finishStep, deliveredU, leftoverBytes, BodyImpl.remainingBytes,
              BodyImpl.frameLens]
        | ioError e =>
          simp_all [BodyReader.poll_read_underlying, BodyReader.source_step, hfin, hlo, himp, hro,
            finishStep, deliveredU, leftoverBytes, BodyImpl.remainingBytes,
            BodyImpl.frameLens]
        | pending =>
          simp_all [BodyReader.poll_read_underlying, BodyReader.source_step, hfin, hlo, himp, hro,
            finishStep, deliveredU, leftoverBytes, BodyImpl.remainingBytes,
            BodyImpl.frameLens]
        | panicked =>
          simp_all [BodyReader.poll_read_underlying, BodyReader.source_step, hfin, hlo, himp, hro,
            finishStep, deliveredU, leftoverBytes, BodyImpl.remainingBytes,
            BodyImpl.frameLens]
      · cases frames with
        | nil =>
          by_cases hw : s.hasBw <;>
            simp [BodyReader.poll_read_underlying, BodyReader.source_step, hfin, hlo, himp, finishStep,
              hw, deliveredU, leftoverBytes, BodyImpl.remainingBytes,
              BodyImpl.frameLens, srcItemsBytes, srcFrameLens]
        | cons f rest =>
          cases f with
          | pend =>
            simp [BodyReader.poll_read_underlying, BodyReader.source_step, hfin, hlo, himp, finishStep,
              deliveredU, leftoverBytes, BodyImpl.remainingBytes,
              BodyImpl.frameLens, srcItemsBytes, srcFrameLens]
          | fail e =>
            simp [BodyReader.poll_read_underlying, BodyReader.source_step, hfin, hlo, himp, finishStep,
              deliveredU, leftoverBytes, BodyImpl.remainingBytes,
              BodyImpl.frameLens, srcItemsBytes, srcFrameLens]
          | chunk data =>
            by_cases hd0 : data.length = 0
            · have hdata : data = [] := List.eq_nil_of_length_eq_zero hd0
              by_cases hw : s.hasBw <;>
                simp [BodyReader.poll_read_underlying, BodyReader.source_step, hfin, hlo, himp,
                  H2BytesReader.read, H2BytesReader.len, finishStep, hw, hdata,
                  deliveredU, leftoverBytes, BodyImpl.remainingBytes,
                  BodyImpl.frameLens, srcItemsBytes, srcFrameLens]
            · by_cases hk : k < data.length
              · have hmin : min k data.length = k := by omega
                have hkp : 0 < data.length - (0 + k) := by omega
                have hdp : 0 < data.length := by omega
                by_cases hamt : k = 0 <;> by_cases hw : s.hasBw <;>
                  · simp [BodyReader.poll_read_underlying, BodyReader.source_step, hfin, hlo, himp,
                      H2BytesReader.read, H2BytesReader.len, finishStep, hd0,
                      hk, hmin, hkp, hdp, hamt, hw, deliveredU, leftoverBytes,
                      BodyImpl.remainingBytes, BodyImpl.frameLens,
                      srcItemsBytes, srcFrameLens]
                    try (rw [← List.append_assoc]; congr 1;
                         exact List.take_append_drop _ _)
              · have hmin : min k data.length = data.length := by omega
                by_cases hw : s.hasBw <;>
                  simp [BodyReader.poll_read_underlying, BodyReader.source_step, hfin, hlo, himp,
                    H2BytesReader.read, H2BytesReader.len, finishStep, hd0, hk,
                    hmin, hw, deliveredU, leftoverBytes,
                    BodyImpl.remainingBytes, BodyImpl.frameLens, srcItemsBytes,
                    srcFrameLens]
    · by_cases hlen : data.length - pos = 0
      · have hd : data.drop pos = [] := List.drop_eq_nil_of_le (by omega)
        simp [BodyReader.poll_read_underlying, BodyReader.source_step, hfin, hlo, H2BytesReader.read,
          H2BytesReader.len, hlen, deliveredU, leftoverBytes, hd]
      · by_cases hk : k < data.length - pos
        · have hmin : min k (data.length - pos) = k := by omega
          have hz : ¬ data.length - (pos + k) = 0 := by omega
          simp [BodyReader.poll_read_underlying, BodyReader.source_step, hfin, hlo, H2BytesReader.read,
            H2BytesReader.len, hlen, hk, hmin, hz, deliveredU, leftoverBytes]
          rw [← List.append_assoc]
          congr 1
          rw [← List.drop_drop, List.take_append_drop]
        · have hmin : min k (data.length - pos) = data.length - pos := by omega
          have hz : data.length - (pos + (data.length - pos)) = 0 := by omega
          have ht : (data.drop pos).take (data.length - pos) = data.drop pos := by
            apply List.take_of_length_le
            rw [List.length_drop]
          simp [BodyReader.poll_read_underlying, BodyReader.source_step, hfin, hlo, H2BytesReader.read,
            H2BytesReader.len, hlen, hk, hmin, hz, ht, deliveredU,
            leftoverBytes]


theorem refill_loop_facts (sched : List Nat) :
    ∀ s : BodyReader,
    ((s.refill_loop sched).2.buffer ++
        (leftoverBytes (s.refill_loop sched).2.h2_leftover_bytes ++
          (s.refill_loop sched).2.imp.remainingBytes)
      = s.buffer ++ (leftoverBytes s.h2_leftover_bytes ++ s.imp.remainingBytes))
    ∧ (s.refill_loop sched).2.consumed = s.consumed
    ∧ (s.refill_loop sched).2.hasBw = s.hasBw
    ∧ ((s.refill_loop sched).2.creditLog ++ (s.refill_loop sched).2.imp.frameLens
      = s.creditLog ++ s.imp.frameLens)
    ∧ ((s.refill_loop sched).1 = .ok () →
        (s.refill_loop sched).2.prebuffer_to = 0 ∧
        ((s.refill_loop sched).2.is_finished = true ∨
          (s.prebuffer_to ≠ 0 ∧
            (s.refill_loop sched).2.buffer.length = s.prebuffer_to) ∨
          (s.prebuffer_to = 0 ∧ 0 < (s.refill_loop sched).2.buffer.length))) := by
  induction sched with
  | nil =>
    intro s
    rw [BodyReader.refill_loop]
    split
    · next hstop =>
      simp only [Bool.or_eq_true, Bool.and_eq_true, decide_eq_true_eq] at hstop
      refine ⟨by simp, by simp, by simp, by simp, fun _ => ⟨by simp, ?_⟩⟩
      rcases hstop with hfin | ⟨h1, h2⟩ | ⟨h1, h2⟩
      · exact Or.inl (by simp [hfin])
      · exact Or.inr (Or.inl ⟨by omega, by simp [h2]⟩)
      · exact Or.inr (Or.inr ⟨h1, by simp [h2]⟩)
    · simp
  | cons k ks ih =>
    intro s
    rw [BodyReader.refill_loop]
    split
    · next hstop =>
      simp only [Bool.or_eq_true, Bool.and_eq_true, decide_eq_true_eq] at hstop
      refine ⟨by simp, by simp, by simp, by simp, fun _ => ⟨by simp, ?_⟩⟩
      rcases hstop with hfin | ⟨h1, h2⟩ | ⟨h1, h2⟩
      · exact Or.inl (by simp [hfin])
      · exact Or.inr (Or.inl ⟨by omega, by simp [h2]⟩)
      · exact Or.inr (Or.inr ⟨h1, by simp [h2]⟩)
    · have hf := poll_read_underlying_facts s k
      rcases hu : s.poll_read_underlying k with ⟨o, s1⟩
      rw [hu] at hf
      obtain ⟨hbytes, hbuf, hcon, hpbt, hbw, hcredit⟩ := hf
      dsimp only at hbytes hbuf hcon hpbt hbw hcredit
      cases o with
      | ok ab =>
        dsimp only
        simp only [deliveredU] at hbytes
        obtain ⟨rbytes, rcon, rbw, rcredit, rexit⟩ :=
          ih { s1 with buffer := s1.buffer ++ ab.2 }
        refine ⟨?_, ?_, ?_, ?_, ?_⟩
        · rw [rbytes]
          simp only [List.append_assoc, hbuf, hbytes]
        · rw [rcon]; exact hcon
        · rw [rbw]; exact hbw
        · rw [rcredit]
          simp only [hcredit]
        · intro hok
          obtain ⟨hz, hd⟩ := rexit hok
          refine ⟨hz, ?_⟩
          rcases hd with h | ⟨h1, h2⟩ | ⟨h1, h2⟩
          · exact Or.inl h
          · exact Or.inr (Or.inl ⟨hpbt ▸ h1, hpbt ▸ h2⟩)
          · exact Or.inr (Or.inr ⟨hpbt ▸ h1, h2⟩)
      | ioError e =>
        dsimp only
        simp_all [deliveredU]
      | pending =>
        dsimp only
        simp_all [deliveredU]
      | panicked =>
        dsimp only
        simp_all [deliveredU]


theorem refill_loop_of_finished (s : BodyReader) (sched : List Nat)
    (h : s.is_finished = true) :
    s.refill_loop sched = (.ok (), { s with prebuffer_to := 0 }) := by
  rw [BodyReader.refill_loop.eq_def]
  rw [if_pos (by simp [h])]

theorem poll_refill_buf_facts (s : BodyReader) (sched : List Nat) :
    ((s.poll_refill_buf sched).2.pendingBytes = s.pendingBytes)
    ∧ (s.poll_refill_buf sched).2.consumed ≤ (s.poll_refill_buf sched).2.buffer.length
    ∧ (s.poll_refill_buf sched).2.hasBw = s.hasBw
    ∧ ((s.poll_refill_buf sched).2.creditLog ++
        (s.poll_refill_buf sched).2.imp.frameLens
      = s.creditLog ++ s.imp.frameLens) := by
  unfold BodyReader.poll_refill_buf
  split
  · next h =>
    refine ⟨rfl, ?_, rfl, rfl⟩
    simp only [BodyReader.unconsumed_len] at h
    dsimp only
    omega
  · next h =>
    have hle : s.buffer.length ≤ s.consumed := by
      simp only [BodyReader.unconsumed_len] at h
      omega
    have hunc : List.drop s.consumed s.buffer = [] := List.drop_eq_nil_of_le hle
    obtain ⟨rbytes, rcon, rbw, rcredit, _⟩ :=
      refill_loop_facts sched { s with consumed := 0, buffer := [] }
    dsimp only at rbytes rcon rbw rcredit
    refine ⟨?_, ?_, rbw, by simpa using rcredit⟩
    · simp only [BodyReader.pendingBytes, BodyReader.unconsumed, rcon,
        List.drop_zero, hunc, List.nil_append]
      simpa using rbytes
    · omega

theorem read_from_buffer_facts (s : BodyReader) (b : Nat)
    (hcon : s.consumed ≤ s.buffer.length) :
    s.read_from_buffer b
      = (.ok (s.unconsumed.take b),
         { s with consumed := s.consumed + (s.unconsumed.take b).length })
    ∧ s.unconsumed.take b ++
        ({ s with consumed := s.consumed + (s.unconsumed.take b).length }).unconsumed
      = s.unconsumed := by
  have hok : s.consumed + (s.unconsumed.take b).length ≤ s.buffer.length := by
    simp only [BodyReader.unconsumed, List.length_take, List.length_drop]
    omega
  constructor
  · simp only [BodyReader.read_from_buffer, BodyReader.consume]
    rw [if_pos hok]
  · simp only [BodyReader.unconsumed, ← List.drop_drop]
    exact take_then_drop_length _ _

theorem poll_read_facts (s : BodyReader) (b : Nat) (sched : List Nat) :
    (deliveredL (s.poll_read b sched).1 ++ (s.poll_read b sched).2.pendingBytes
      = s.pendingBytes)
    ∧ (s.poll_read b sched).2.hasBw = s.hasBw
    ∧ ((s.poll_read b sched).2.creditLog ++ (s.poll_read b sched).2.imp.frameLens
      = s.creditLog ++ s.imp.frameLens) := by
  unfold BodyReader.poll_read
  split
  · next hempty =>
    split
    · next hfin => exact ⟨rfl, rfl, rfl⟩
    · next hfin =>
      obtain ⟨pbytes, pcon, pbw, pcredit⟩ := poll_refill_buf_facts s sched
      rcases hp : s.poll_refill_buf sched with ⟨o, s1⟩
      rw [hp] at pbytes pcon pbw pcredit
      dsimp only at pbytes pcon pbw pcredit
      cases o with
      | ok u =>
        dsimp only
        obtain ⟨hres, hsplit⟩ := read_from_buffer_facts s1 b pcon
        rw [hres]
        dsimp only [deliveredL]
        refine ⟨?_, pbw, pcredit⟩
        rw [← pbytes]
        simp only [BodyReader.pendingBytes, ← List.append_assoc]
        rw [hsplit]
      | ioError e => exact ⟨pbytes, pbw, pcredit⟩
      | pending => exact ⟨pbytes, pbw, pcredit⟩
      | panicked => exact ⟨pbytes, pbw, pcredit⟩
  · next hempty =>
    have hcon : s.consumed ≤ s.buffer.length := by
      simp only [BodyReader.unconsumed_len] at hempty
      omega
    obtain ⟨hres, hsplit⟩ := read_from_buffer_facts s b hcon
    rw [hres]
    dsimp only [deliveredL]
    refine ⟨?_, rfl, rfl⟩
    simp only [BodyReader.pendingBytes, ← List.append_assoc]
    rw [hsplit]

theorem runReads_facts (calls : List (Nat × List Nat)) :
    ∀ s : BodyReader,
    ((s.runReads calls).1 ++ (s.runReads calls).2.pendingBytes = s.pendingBytes)
    ∧ ((s.runReads calls).2.creditLog ++ (s.runReads calls).2.imp.frameLens
      = s.creditLog ++ s.imp.frameLens) := by
  induction calls with
  | nil => intro s; simp [BodyReader.runReads]
  | cons c calls ih =>
    intro s
    rcases c with ⟨b, sched⟩
    obtain ⟨hbytes, _, hcredit⟩ := poll_read_facts s b sched
    rcases hp : s.poll_read b sched with ⟨o, s1⟩
    rw [hp] at hbytes hcredit
    dsimp only at hbytes hcredit
    obtain ⟨rbytes, rcredit⟩ := ih s1
    simp only [BodyReader.runReads, hp]
    constructor
    · rw [List.append_assoc, rbytes, hbytes]
    · rw [rcredit, hcredit]


theorem refill_loop_pbt_of_not_ok (sched : List Nat) :
    ∀ s : BodyReader, (s.refill_loop sched).1 ≠ .ok () →
      (s.refill_loop sched).2.prebuffer_to = s.prebuffer_to := by
  induction sched with
  | nil =>
    intro s h
    rw [BodyReader.refill_loop] at h ⊢
    split at h
    · exact absurd rfl h
    · next hc =>
      rw [if_neg hc]
  | cons k ks ih =>
    intro s h
    rw [BodyReader.refill_loop] at h ⊢
    split at h
    · exact absurd rfl h
    · next hc =>
      rw [if_neg hc]
      have hf := poll_read_underlying_facts s k
      rcases hu : s.poll_read_underlying k with ⟨o, s1⟩
      rw [hu] at hf h
      obtain ⟨_, _, _, hpbt, _, _⟩ := hf
      dsimp only at hpbt
      cases o with
      | ok ab =>
        dsimp only at h ⊢
        rw [ih _ h]
        exact hpbt
      | ioError e => exact hpbt
      | pending => exact hpbt
      | panicked => exact hpbt

theorem poll_read_inv (s : BodyReader) (b : Nat) (sched : List Nat)
    (hcon : s.consumed ≤ s.buffer.length) :
    (s.poll_read b sched).2.consumed ≤ (s.poll_read b sched).2.buffer.length := by
  unfold BodyReader.poll_read
  split
  · split
    · exact hcon
    · obtain ⟨_, pcon, _, _⟩ := poll_refill_buf_facts s sched
      rcases hp : s.poll_refill_buf sched with ⟨o, s1⟩
      rw [hp] at pcon
      dsimp only at pcon
      cases o with
      | ok u =>
        dsimp only
        obtain ⟨hres, _⟩ := read_from_buffer_facts s1 b pcon
        rw [hres]
        dsimp only
        simp only [BodyReader.unconsumed, List.length_take, List.length_drop]
        omega
      | ioError e => exact pcon
      | pending => exact pcon
      | panicked => exact pcon
  · obtain ⟨hres, _⟩ := read_from_buffer_facts s b hcon
    rw [hres]
    dsimp only
    simp only [BodyReader.unconsumed, List.length_take, List.length_drop]
    omega


theorem readItems_ok_len (items : List SrcItem) (k : Nat) :
    ∀ amt bytes rest, readItems items k = (.ok (amt, bytes), rest) →
      bytes.length = amt := by
  intro amt bytes rest h
  match items with
  | [] =>
    simp only [readItems, Prod.mk.injEq, Outcome.ok.injEq] at h
    obtain ⟨⟨ha, hb⟩, _⟩ := h
    subst ha hb
    rfl
  | .pend :: r => simp [readItems] at h
  | .fail e :: r => simp [readItems] at h
  | .chunk c :: r =>
    simp only [readItems] at h
    split at h <;>
    · simp only [Prod.mk.injEq, Outcome.ok.injEq] at h
      obtain ⟨⟨ha, hb⟩, _⟩ := h
      subst ha hb
      simp only [List.length_take]
      omega

theorem readSyncItems_ok_len (items : List SyncItem) (k : Nat) :
    ∀ amt bytes rest, readSyncItems items k = (.ok (amt, bytes), rest) →
      bytes.length = amt := by
  intro amt bytes rest h
  match items with
  | [] =>
    simp only [readSyncItems, Prod.mk.injEq, Except.ok.injEq] at h
    obtain ⟨⟨ha, hb⟩, _⟩ := h
    subst ha hb
    rfl
  | .fail e :: r => simp [readSyncItems] at h
  | .chunk c :: r =>
    simp only [readSyncItems] at h
    split at h <;>
    · simp only [Prod.mk.injEq, Except.ok.injEq] at h
      obtain ⟨⟨ha, hb⟩, _⟩ := h
      subst ha hb
      simp only [List.length_take]
      omega

theorem underlying_fresh_eq (s : BodyReader) (k : Nat)
    (hfin : s.is_finished = false) (hlo : s.h2_leftover_bytes = none) :
    s.poll_read_underlying k = finishStep (s.source_step k) := by
  rw [BodyReader.poll_read_underlying, if_neg (by rw [hfin]; simp), hlo]

theorem source_step_facts (s : BodyReader) (k : Nat) :
    (s.source_step k).2.bwLog = s.bwLog
    ∧ (s.source_step k).2.hasBw = s.hasBw
    ∧ (s.source_step k).2.is_finished = s.is_finished
    ∧ (∀ amt bytes, (s.source_step k).1 = .ok (amt, bytes) →
        bytes.length = amt) := by
  rcases himp : s.imp with _ | items | items | items | frames
  · refine ⟨by simp [BodyReader.source_step, himp],
      by simp [BodyReader.source_step, himp],
      by simp [BodyReader.source_step, himp], ?_⟩
    intro amt bytes h
    simp only [BodyReader.source_step, himp, Outcome.ok.injEq,
      Prod.mk.injEq] at h
    obtain ⟨ha, hb⟩ := h
    subst ha hb
    rfl
  · rcases hro : readItems items k with ⟨o, rest⟩
    refine ⟨by simp [BodyReader.source_step, himp, hro],
      by simp [BodyReader.source_step, himp, hro],
      by simp [BodyReader.source_step, himp, hro], ?_⟩
    intro amt bytes h
    simp only [BodyReader.source_step, himp, hro] at h
    subst h
    exact readItems_ok_len items k amt bytes rest hro
  · rcases hro : readSyncItems items k with ⟨o, rest⟩
    cases o with
    | ok ab =>
      refine ⟨by simp [BodyReader.source_step, himp, hro],
        by simp [BodyReader.source_step, himp, hro],
        by simp [BodyReader.source_step, himp, hro], ?_⟩
      intro amt bytes h
      simp only [BodyReader.source_step, himp, hro, Outcome.ok.injEq] at h
      subst h
      exact readSyncItems_ok_len items k amt bytes rest hro
    | error e =>
      by_cases he : e = IOErr.wouldBlock <;>
        · refine ⟨by simp [BodyReader.source_step, himp, hro, he],
            by simp [BodyReader.source_step, himp, hro, he],
            by simp [BodyReader.source_step, himp, hro, he], ?_⟩
          intro amt bytes h
          simp [BodyReader.source_step, himp, hro, he] at h
  · rcases hro : readItems items k with ⟨o, rest⟩
    refine ⟨by simp [BodyReader.source_step, himp, hro],
      by simp [BodyReader.source_step, himp, hro],
      by simp [BodyReader.source_step, himp, hro], ?_⟩
    intro amt bytes h
    simp only [BodyReader.source_step, himp, hro] at h
    subst h
    exact readItems_ok_len items k amt bytes rest hro
  · cases frames with
    | nil =>
      refine ⟨by simp [BodyReader.source_step, himp],
        by simp [BodyReader.source_step, himp],
        by simp [BodyReader.source_step, himp], ?_⟩
      intro amt bytes h
      simp only [BodyReader.source_step, himp, Outcome.ok.injEq,
        Prod.mk.injEq] at h
      obtain ⟨ha, hb⟩ := h
      subst ha hb
      rfl
    | cons f rest =>
      cases f with
      | pend =>
        refine ⟨by simp [BodyReader.source_step, himp],
          by simp [BodyReader.source_step, himp],
          by simp [BodyReader.source_step, himp], ?_⟩
        intro amt bytes h
        simp [BodyReader.source_step, himp] at h
      | fail e =>
        refine ⟨by simp [BodyReader.source_step, himp],
          by simp [BodyReader.source_step, himp],
          by simp [BodyReader.source_step, himp], ?_⟩
        intro amt bytes h
        simp [BodyReader.source_step, himp] at h
      | chunk data =>
        refine ⟨?_, ?_, ?_, ?_⟩
        · simp only [BodyReader.source_step, himp]
          split <;> rfl
        · simp only [BodyReader.source_step, himp]
          split <;> rfl
        · simp only [BodyReader.source_step, himp]
          split <;> rfl
        · intro amt bytes h
          simp only [BodyReader.source_step, himp, H2BytesReader.read,
            H2BytesReader.len] at h
          by_cases hd0 : data.length - 0 = 0
          · rw [if_pos hd0] at h
            simp only [Outcome.ok.injEq, Prod.mk.injEq] at h
            obtain ⟨ha, hb⟩ := h
            subst ha hb
            rfl
          · rw [if_neg hd0] at h
            simp only [Outcome.ok.injEq, Prod.mk.injEq] at h
            obtain ⟨ha, hb⟩ := h
            subst ha hb
            simp only [List.drop_zero, List.length_take]
            omega

theorem finishStep_bwLog (p : Outcome (Nat × List Byte) × BodyReader) :
    (p.2.hasBw = true → ∀ ab s', finishStep p = (.ok ab, s') →
        s'.bwLog = p.2.bwLog ++ [ab.1])
    ∧ (p.2.hasBw = false → (finishStep p).2.bwLog = p.2.bwLog) := by
  rcases p with ⟨o, t⟩
  cases o with
  | ok ab0 =>
    constructor
    · intro hbw ab s' h
      dsimp only at hbw ⊢
      by_cases hz : ab0.1 = 0 <;>
        · simp only [finishStep, hz, hbw, if_true, if_false, ite_true,
            ite_false, Prod.mk.injEq, Outcome.ok.injEq] at h
          obtain ⟨ha, hs⟩ := h
          subst ha
          subst hs
          simp [hbw, hz]
    · intro hbw
      dsimp only at hbw ⊢
      by_cases hz : ab0.1 = 0 <;> simp [finishStep, hz, hbw]
  | ioError e =>
    exact ⟨fun _ ab s' h => by simp [finishStep] at h, fun _ => rfl⟩
  | pending =>
    exact ⟨fun _ ab s' h => by simp [finishStep] at h, fun _ => rfl⟩
  | panicked =>
    exact ⟨fun _ ab s' h => by simp [finishStep] at h, fun _ => rfl⟩


/-- C5 counterexample: with a bandwidth monitor set, an HTTP/2 chunk of
two bytes is drained by two one-byte reads; both reads successfully
obtain one byte, but only the first (which received the fresh chunk) is
reported — after the second read the log still holds a single entry, so
the observer was never told of the byte obtained from the leftover
chunk. -/
theorem C5_bw_counterexample :
    let s0 : BodyReader :=
      { imp := .http2 [.chunk [5, 6]], prebuffer_to := 0, buffer := [],
        consumed := 0, h2_leftover_bytes := none, is_finished := false,
        hasBw := true, bwLog := [], creditLog := [] }
    let p1 := s0.poll_read_underlying 1
    let p2 := p1.2.poll_read_underlying 1
    p1.1 = .ok (1, [5]) ∧ p2.1 = .ok (1, [6]) ∧ p2.2.bwLog = [1]
      ∧ p2.2.hasBw = true := by
  simp [BodyReader.poll_read_underlying, BodyReader.source_step, finishStep,
    readItems, readSyncItems, H2BytesReader.read, H2BytesReader.len]

/-- C5 amended: when a bandwidth monitor is set, every read satisfied by
polling the underlying source reports to it exactly the amount obtained
(including the final zero read at end of stream); reads satisfied from
the retained HTTP/2 leftover chunk are never reported, and nothing is
reported when no monitor is set or the reader is already finished. -/
theorem C5_bw_amended (s : BodyReader) (k : Nat) :
    (s.is_finished = false → s.h2_leftover_bytes = none → s.hasBw = true →
      ∀ amt bytes s', s.poll_read_underlying k = (.ok (amt, bytes), s') →
        s'.bwLog = s.bwLog ++ [amt] ∧ bytes.length = amt)
    ∧ (s.is_finished = false → s.h2_leftover_bytes ≠ none →
        (s.poll_read_underlying k).2.bwLog = s.bwLog)
    ∧ (s.hasBw = false → (s.poll_read_underlying k).2.bwLog = s.bwLog)
    ∧ (s.is_finished = true → (s.poll_read_underlying k).2.bwLog = s.bwLog) := by
  refine ⟨?_, ?_, ?_, ?_⟩
  · intro hfin hlo hbw amt bytes s' h
    rw [underlying_fresh_eq s k hfin hlo] at h
    obtain ⟨sbw, sh, _, slen⟩ := source_step_facts s k
    obtain ⟨fs1, _⟩ := finishStep_bwLog (s.source_step k)
    have hob := fs1 (by rw [sh, hbw]) (amt, bytes) s' h
    have ho : (s.source_step k).1 = .ok (amt, bytes) := by
      rw [← (finishStep_fields (s.source_step k)).1, h]
    exact ⟨by rw [hob, sbw], slen amt bytes ho⟩
  · intro hfin hne
    rcases hlo : s.h2_leftover_bytes with _ | br
    · exact absurd hlo hne
    · simp [BodyReader.poll_read_underlying, hfin, hlo]
  · intro hbw
    by_cases hfin : s.is_finished
    · simp [BodyReader.poll_read_underlying, hfin]
    · rcases hlo : s.h2_leftover_bytes with _ | br
      · rw [underlying_fresh_eq s k (by simpa using hfin) hlo]
        obtain ⟨sbw, sh, _, _⟩ := source_step_facts s k
        obtain ⟨_, fs2⟩ := finishStep_bwLog (s.source_step k)
        rw [fs2 (by rw [sh, hbw]), sbw]
      · simp [BodyReader.poll_read_underlying, hfin, hlo]
  · intro hfin
    simp [BodyReader.poll_read_underlying, hfin]

/-- C5 witness for the amended claim: a fresh HTTP/2 chunk read with the
monitor set appends exactly the obtained amount. -/
theorem C5_bw_amended_witness :
    (({ imp := .http2 [.chunk [5, 6]], prebuffer_to := 0, buffer := [],
        consumed := 0, h2_leftover_bytes := none, is_finished := false,
        hasBw := true, bwLog := [], creditLog := [] }
        : BodyReader).poll_read_underlying 1).2.bwLog = [] ++ [1] :=
  by
    refine ((C5_bw_amended
      { imp := .http2 [.chunk [5, 6]], prebuffer_to := 0, buffer := [],
        consumed := 0, h2_leftover_bytes := none, is_finished := false,
        hasBw := true, bwLog := [], creditLog := [] } 1).1
      rfl rfl rfl 1 [5] _ ?_).1
    simp [BodyReader.poll_read_underlying, BodyReader.source_step, finishStep,
      H2BytesReader.read, H2BytesReader.len]


/-- C2 counterexample: with prebuffer target 4, a synchronous source of
two 3-byte chunks filled in 3-byte slabs skips the exact target (the
buffer goes 3, then 6) because the stop test compares the buffer length
to the target with equality; the loop therefore keeps reading until the
source reaches end of stream at 6 bytes and attempt_prebuffer returns
Some 6, although the source did not reach end of stream within the
prebuffer target (6 > 4). -/
theorem C2_prebuffer_counterexample :
    let s0 : BodyReader :=
      { imp := .requestRead [.chunk [1, 1, 1], .chunk [1, 1, 1]],
        prebuffer_to := 4, buffer := [], consumed := 0,
        h2_leftover_bytes := none, is_finished := false, hasBw := false,
        bwLog := [], creditLog := [] }
    (s0.attempt_prebuffer [[3, 3, 3]]).1 = .ok (some 6)
      ∧ s0.prebuffer_to = 4 ∧ 4 < 6 := by
  refine ⟨?_, rfl, by omega⟩
  simp [BodyReader.attempt_prebuffer, BodyReader.attempt_prebuffer_aux,
    BodyReader.poll_refill_buf, BodyReader.refill_loop,
    BodyReader.poll_read_underlying, BodyReader.source_step,
    BodyReader.unconsumed_len, readSyncItems, finishStep,
    H2BytesReader.read, H2BytesReader.len]

/-- C2 amended: attempt_prebuffer returns Some n exactly when the source
reached end of stream during the call, with n the total buffered length,
and returns None exactly when the refill stopped without observing end
of stream (which happens only when the buffer length hits the prebuffer
target exactly); at target 4 with byte-granular fills a 3-byte source
yields Some 3 and 4- and 5-byte sources yield None, and the empty source
with prebuffering enabled yields Some 0. -/
theorem C2_prebuffer_amended :
    (∀ (s : BodyReader) (polls : List (List Nat)) (n : Nat),
      (s.attempt_prebuffer polls).1 = .ok (some n) →
        (s.attempt_prebuffer polls).2.is_finished = true
        ∧ n = (s.attempt_prebuffer polls).2.buffer.length)
    ∧ (∀ (s : BodyReader) (polls : List (List Nat)),
      (s.attempt_prebuffer polls).1 = .ok none →
        (s.attempt_prebuffer polls).2.is_finished = false)
    ∧ (({ imp := .requestRead [.chunk [1, 1, 1]], prebuffer_to := 4,
          buffer := [], consumed := 0, h2_leftover_bytes := none,
          is_finished := false, hasBw := false, bwLog := [], creditLog := [] }
          : BodyReader).attempt_prebuffer [[1, 1, 1, 1]]).1 = .ok (some 3)
    ∧ (({ imp := .requestRead [.chunk [1, 1, 1, 1]], prebuffer_to := 4,
          buffer := [], consumed := 0, h2_leftover_bytes := none,
          is_finished := false, hasBw := false, bwLog := [], creditLog := [] }
          : BodyReader).attempt_prebuffer [[1, 1, 1, 1, 1]]).1 = .ok none
    ∧ (({ imp := .requestRead [.chunk [1, 1, 1, 1, 1]], prebuffer_to := 4,
          buffer := [], consumed := 0, h2_leftover_bytes := none,
          is_finished := false, hasBw := false, bwLog := [], creditLog := [] }
          : BodyReader).attempt_prebuffer [[1, 1, 1, 1, 1]]).1 = .ok none
    ∧ ((BodyReader.new .requestEmpty true).attempt_prebuffer [[1]]).1
        = .ok (some 0) := by
  refine ⟨?_, ?_, ?_, ?_, ?_, ?_⟩
  · intro s polls n h
    unfold BodyReader.attempt_prebuffer at h ⊢
    rcases ha : s.attempt_prebuffer_aux polls with ⟨o, s1⟩
    rw [ha] at h
    cases o with
    | ok u =>
      dsimp only at h ⊢
      split at h
      · next hfin =>
        simp only [Outcome.ok.injEq, Option.some.injEq] at h
        exact ⟨hfin, h.symm⟩
      · simp at h
    | ioError e => simp at h
    | pending => simp at h
    | panicked => simp at h
  · intro s polls h
    unfold BodyReader.attempt_prebuffer at h ⊢
    rcases ha : s.attempt_prebuffer_aux polls with ⟨o, s1⟩
    rw [ha] at h
    cases o with
    | ok u =>
      dsimp only at h ⊢
      split at h
      · simp at h
      · next hfin => simpa using hfin
    | ioError e => simp at h
    | pending => simp at h
    | panicked => simp at h
  · simp [BodyReader.attempt_prebuffer, BodyReader.attempt_prebuffer_aux,
      BodyReader.poll_refill_buf, BodyReader.refill_loop,
      BodyReader.poll_read_underlying, BodyReader.source_step,
      BodyReader.unconsumed_len, readSyncItems, finishStep,
      H2BytesReader.read, H2BytesReader.len]
  · simp [BodyReader.attempt_prebuffer, BodyReader.attempt_prebuffer_aux,
      BodyReader.poll_refill_buf, BodyReader.refill_loop,
      BodyReader.poll_read_underlying, BodyReader.source_step,
      BodyReader.unconsumed_len, readSyncItems, finishStep,
      H2BytesReader.read, H2BytesReader.len]
  · simp [BodyReader.attempt_prebuffer, BodyReader.attempt_prebuffer_aux,
      BodyReader.poll_refill_buf, BodyReader.refill_loop,
      BodyReader.poll_read_underlying, BodyReader.source_step,
      BodyReader.unconsumed_len, readSyncItems, finishStep,
      H2BytesReader.read, H2BytesReader.len]
  · simp [BodyReader.attempt_prebuffer, BodyReader.attempt_prebuffer_aux,
      BodyReader.poll_refill_buf, BodyReader.refill_loop,
      BodyReader.poll_read_underlying, BodyReader.source_step,
      BodyReader.new, BodyReader.unconsumed_len, readSyncItems, finishStep,
      H2BytesReader.read, H2BytesReader.len, MAX_PREBUFFER]

/-- C2 witness for the amended claim, at the empty source with
prebuffering enabled. -/
theorem C2_prebuffer_amended_witness :
    ((BodyReader.new .requestEmpty true).attempt_prebuffer
        [[1]]).2.is_finished = true :=
  (C2_prebuffer_amended.1 (BodyReader.new .requestEmpty true) [[1]] 0
    C2_prebuffer_amended.2.2.2.2.2).1


/-- C4 counterexample: with prebuffer target 4, an asynchronous source
that yields a 2-byte chunk and then reports pending interrupts the first
fill cycle with 2 bytes buffered and the target still set (p1); the next
poll returns successfully through the unconsumed-bytes no-op, still with
the target set (p2); after those bytes are consumed, a later refill
cycle enters prebuffer mode again and accumulates two further chunks up
to the target (p3 buffers 4 bytes), so prebuffering happened twice for
one reader, refuting the claim that the target reset makes prebuffering
happen at most once. -/
theorem C4_refill_counterexample :
    let s0 : BodyReader :=
      { imp := .requestAsyncRead
          [.chunk [9, 9], .pend, .chunk [8, 8], .chunk [7, 7]],
        prebuffer_to := 4, buffer := [], consumed := 0,
        h2_leftover_bytes := none, is_finished := false, hasBw := false,
        bwLog := [], creditLog := [] }
    let p1 := s0.poll_refill_buf [2, 2]
    let p2 := p1.2.poll_refill_buf [2, 2, 2]
    let p3 := (p2.2.consume 2).2.poll_refill_buf [2, 2, 2]
    p1.1 = .pending ∧ p1.2.buffer = [9, 9] ∧ p1.2.prebuffer_to = 4
      ∧ p2.1 = .ok () ∧ p2.2.prebuffer_to = 4
      ∧ p3.1 = .ok () ∧ p3.2.buffer = [8, 8, 7, 7]
      ∧ p3.2.prebuffer_to = 0 := by
  simp [BodyReader.poll_refill_buf, BodyReader.refill_loop,
    BodyReader.poll_read_underlying, BodyReader.source_step,
    BodyReader.unconsumed_len, BodyReader.consume, readItems, finishStep,
    H2BytesReader.read, H2BytesReader.len]

/-- C4 amended: the refill entry point is a no-op when unconsumed bytes
remain and otherwise resets the cursor, clears the buffer and runs the
loop; the loop exits successfully exactly when the reader is finished,
or prebuffering is active and the buffer length equals the target
exactly, or prebuffering is inactive and the buffer is nonempty, and on
such an exit the target is reset to 0; an unsuccessful exit (error,
pending or panic) leaves the target unchanged, which is how prebuffering
can run again after an interrupted fill. -/
theorem C4_refill_amended (s : BodyReader) (sched : List Nat) :
    (0 < s.unconsumed_len → s.poll_refill_buf sched = (.ok (), s))
    ∧ (s.unconsumed_len = 0 →
        s.poll_refill_buf sched
          = BodyReader.refill_loop { s with consumed := 0, buffer := [] } sched)
    ∧ ((s.refill_loop sched).1 = .ok () →
        (s.refill_loop sched).2.prebuffer_to = 0
        ∧ ((s.refill_loop sched).2.is_finished = true
          ∨ (s.prebuffer_to ≠ 0
              ∧ (s.refill_loop sched).2.buffer.length = s.prebuffer_to)
          ∨ (s.prebuffer_to = 0 ∧ 0 < (s.refill_loop sched).2.buffer.length)))
    ∧ ((s.is_finished = true
        ∨ (s.prebuffer_to ≠ 0 ∧ s.buffer.length = s.prebuffer_to)
        ∨ (s.prebuffer_to = 0 ∧ 0 < s.buffer.length)) →
        s.refill_loop sched = (.ok (), { s with prebuffer_to := 0 }))
    ∧ ((s.refill_loop sched).1 ≠ .ok () →
        (s.refill_loop sched).2.prebuffer_to = s.prebuffer_to) := by
  refine ⟨?_, ?_, (refill_loop_facts sched s).2.2.2.2, ?_,
    refill_loop_pbt_of_not_ok sched s⟩
  · intro hpos
    unfold BodyReader.poll_refill_buf
    rw [if_pos hpos]
  · intro hz
    unfold BodyReader.poll_refill_buf
    rw [if_neg (by omega)]
  · intro hc
    rw [BodyReader.refill_loop.eq_def]
    rw [if_pos ?_]
    simp only [Bool.or_eq_true, Bool.and_eq_true, decide_eq_true_eq]
    rcases hc with h | ⟨h1, h2⟩ | ⟨h1, h2⟩
    · exact Or.inl h
    · exact Or.inr (Or.inl ⟨by omega, h2⟩)
    · exact Or.inr (Or.inr ⟨h1, h2⟩)

/-- C4 witness for the amended claim: a reader holding one unconsumed
byte is untouched by the refill entry point. -/
theorem C4_refill_amended_witness :
    ({ imp := .requestEmpty, prebuffer_to := 0, buffer := [3], consumed := 0,
       h2_leftover_bytes := none, is_finished := false, hasBw := false,
       bwLog := [], creditLog := [] } : BodyReader).poll_refill_buf [1]
      = (.ok (),
         { imp := .requestEmpty, prebuffer_to := 0, buffer := [3],
           consumed := 0, h2_leftover_bytes := none, is_finished := false,
           hasBw := false, bwLog := [], creditLog := [] }) :=
  (C4_refill_amended _ [1]).1 (by decide)


/-- C1: for every Body Source and every sequence of poll_read calls with
arbitrary caller buffer sizes and refill slab schedules, the bytes
delivered to the caller followed by the bytes still pending (unconsumed
buffer, then HTTP/2 leftover chunk, then unread source) are exactly the
bytes the source produces, in that order; once nothing is pending the
delivered concatenation equals the source's full output, so no byte is
duplicated, dropped or reordered. -/
theorem C1_byte_stream_conservation (imp : BodyImpl) (prebuffer : Bool)
    (calls : List (Nat × List Nat)) :
    (((BodyReader.new imp prebuffer).runReads calls).1 ++
        ((BodyReader.new imp prebuffer).runReads calls).2.pendingBytes
      = imp.remainingBytes)
    ∧ (((BodyReader.new imp prebuffer).runReads calls).2.pendingBytes = [] →
        ((BodyReader.new imp prebuffer).runReads calls).1
          = imp.remainingBytes) := by
  have h := (runReads_facts calls (BodyReader.new imp prebuffer)).1
  have hinit : (BodyReader.new imp prebuffer).pendingBytes
      = imp.remainingBytes := by
    simp [BodyReader.new, BodyReader.pendingBytes, BodyReader.unconsumed,
      leftoverBytes]
  rw [hinit] at h
  refine ⟨h, fun hz => ?_⟩
  rw [hz, List.append_nil] at h
  exact h

/-- C3: for an HTTP/2 body, the flow-control credits released
(`creditLog`) plus the lengths of the frames not yet received always
equal the lengths of all frames, so each chunk's full size is released
exactly once, when the chunk is first received, independent of how many
reads drain it; a read served from the leftover reader releases nothing
and does not touch the source. -/
theorem C3_flow_credit_exact (frames : List SrcItem) (prebuffer : Bool)
    (calls : List (Nat × List Nat)) (s : BodyReader) (k : Nat) :
    (((BodyReader.new (.http2 frames) prebuffer).runReads calls).2.creditLog ++
        ((BodyReader.new (.http2 frames) prebuffer).runReads
            calls).2.imp.frameLens
      = srcFrameLens frames)
    ∧ ((s.poll_read_underlying k).2.creditLog ++
        (s.poll_read_underlying k).2.imp.frameLens
      = s.creditLog ++ s.imp.frameLens)
    ∧ (s.is_finished = false → ∀ br, s.h2_leftover_bytes = some br →
        (s.poll_read_underlying k).2.creditLog = s.creditLog
        ∧ (s.poll_read_underlying k).2.imp = s.imp) := by
  refine ⟨?_, (poll_read_underlying_facts s k).2.2.2.2.2, ?_⟩
  · have h := (runReads_facts calls (BodyReader.new (.http2 frames) prebuffer)).2
    simpa [BodyReader.new, BodyImpl.frameLens] using h
  · intro hfin br hlo
    constructor <;> simp [BodyReader.poll_read_underlying, hfin, hlo]

/-- C7: reading, filling or consuming a still-Deferred codec panics,
returning neither body data nor an error value, and leaves the codec
untouched. -/
theorem C7_deferred_panics (r : Option BodyReader) (b amt : Nat)
    (sched : List Nat) :
    (BodyCodec.deferred r).poll_read b sched = (.panicked, .deferred r)
    ∧ (BodyCodec.deferred r).poll_fill_buf sched = (.panicked, .deferred r)
    ∧ (BodyCodec.deferred r).consume amt = (.panicked, .deferred r) :=
  ⟨rfl, rfl, rfl⟩

/-- C9: `from_encoding` maps no encoding name to Pass, the recognized
name on the incoming path to the decoder, the recognized name on the
outgoing path to the encoder, and any other name to Pass with the
warning; `affects_content_size` holds exactly for the decoder and
encoder states. -/
theorem C9_from_encoding_table (r : BodyReader) (i : Bool) (nm : String) :
    BodyCodec.from_encoding r none i = .pass r
    ∧ BodyCodec.from_encoding r (some "gzip") true = .gzipDecoder r
    ∧ BodyCodec.from_encoding r (some "gzip") false = .gzipEncoder r
    ∧ (nm ≠ "gzip" →
        BodyCodec.from_encoding r (some nm) i = .pass r
        ∧ BodyCodec.from_encoding_warns (some nm) i = true)
    ∧ BodyCodec.from_encoding_warns none i = false
    ∧ BodyCodec.from_encoding_warns (some "gzip") i = false
    ∧ (∀ c : BodyCodec, c.affects_content_size = true ↔
        ((∃ r2, c = .gzipDecoder r2) ∨ (∃ r2, c = .gzipEncoder r2))) := by
  refine ⟨rfl, by simp [BodyCodec.from_encoding],
    by simp [BodyCodec.from_encoding], fun hnm => ?_, rfl,
    by simp [BodyCodec.from_encoding_warns], ?_⟩
  · constructor
    · simp [BodyCodec.from_encoding, hnm]
    · simp [BodyCodec.from_encoding_warns, hnm]
  · intro c
    cases c <;> simp [BodyCodec.affects_content_size]

/-- C9 witness at the unrecognized name br. -/
theorem C9_from_encoding_table_witness :
    BodyCodec.from_encoding (BodyReader.new .requestEmpty false) (some "br")
        true
      = .pass (BodyReader.new .requestEmpty false)
    ∧ BodyCodec.from_encoding_warns (some "br") true = true :=
  (C9_from_encoding_table (BodyReader.new .requestEmpty false) true
    "br").2.2.2.1 (by decide)

/-- C10: once a reader is finished, the finished flag stays set: polling
the underlying source is a no-op returning a zero read and changing
nothing, the refill loop exits at once, and poll_read first drains any
remaining buffered bytes (cursor advance only) and then returns a zero
read forever, with the state unchanged. -/
theorem C10_finished_monotone (s : BodyReader) (k b : Nat) (sched : List Nat)
    (h : s.is_finished = true) :
    s.poll_read_underlying k = (.ok (0, []), s)
    ∧ s.refill_loop sched = (.ok (), { s with prebuffer_to := 0 })
    ∧ (s.poll_read b sched).2.is_finished = true
    ∧ (s.unconsumed_len = 0 → s.poll_read b sched = (.ok [], s))
    ∧ (0 < s.unconsumed_len →
        s.poll_read b sched
          = (.ok (s.unconsumed.take b),
             { s with consumed := s.consumed + (s.unconsumed.take b).length })) := by
  have h1 : s.poll_read_underlying k = (.ok (0, []), s) := by
    simp [BodyReader.poll_read_underlying, h]
  have h4 : s.unconsumed_len = 0 → s.poll_read b sched = (.ok [], s) := by
    intro hz
    unfold BodyReader.poll_read
    rw [if_pos hz, if_pos h]
  have h5 : 0 < s.unconsumed_len →
      s.poll_read b sched
        = (.ok (s.unconsumed.take b),
           { s with consumed := s.consumed + (s.unconsumed.take b).length }) := by
    intro hpos
    have hcon : s.consumed ≤ s.buffer.length := by
      simp only [BodyReader.unconsumed_len] at hpos
      omega
    obtain ⟨hres, _⟩ := read_from_buffer_facts s b hcon
    unfold BodyReader.poll_read
    rw [if_neg (by omega)]
    exact hres
  refine ⟨h1, refill_loop_of_finished s sched h, ?_, h4, h5⟩
  by_cases hz : s.unconsumed_len = 0
  · rw [h4 hz]
    exact h
  · rw [h5 (by omega)]
    exact h

/-- C10 witness: a finished reader with two undrained buffered bytes. -/
theorem C10_finished_monotone_witness :
    ({ imp := .requestEmpty, prebuffer_to := 0, buffer := [7, 8], consumed := 0,
       h2_leftover_bytes := none, is_finished := true, hasBw := false,
       bwLog := [], creditLog := [] } : BodyReader).poll_read_underlying 3
      = (.ok (0, []),
         { imp := .requestEmpty, prebuffer_to := 0, buffer := [7, 8],
           consumed := 0, h2_leftover_bytes := none, is_finished := true,
           hasBw := false, bwLog := [], creditLog := [] }) :=
  (C10_finished_monotone _ 3 1 [1] rfl).1

/-- C6: a synchronous source reporting a would-block condition makes the
read panic rather than return an error or suspend, while any other I/O
failure from the synchronous, asynchronous, HTTP/1 or HTTP/2 source is
propagated to the caller as an I/O error. -/
theorem C6_error_propagation (s : BodyReader) (k : Nat) (e : IOErr)
    (items : List SyncItem) (aitems : List SrcItem)
    (hfin : s.is_finished = false) (hlo : s.h2_leftover_bytes = none) :
    (s.imp = .requestRead (.fail .wouldBlock :: items) →
      s.poll_read_underlying k
        = (.panicked, { s with imp := .requestRead items }))
    ∧ (e ≠ .wouldBlock → s.imp = .requestRead (.fail e :: items) →
      s.poll_read_underlying k
        = (.ioError e, { s with imp := .requestRead items }))
    ∧ (s.imp = .requestAsyncRead (.fail e :: aitems) →
      s.poll_read_underlying k
        = (.ioError e, { s with imp := .requestAsyncRead aitems }))
    ∧ (s.imp = .http1 (.fail e :: aitems) →
      s.poll_read_underlying k
        = (.ioError e, { s with imp := .http1 aitems }))
    ∧ (s.imp = .http2 (.fail e :: aitems) →
      s.poll_read_underlying k
        = (.ioError e, { s with imp := .http2 aitems })) := by
  refine ⟨fun h1 => ?_, fun hne h1 => ?_, fun h1 => ?_, fun h1 => ?_,
    fun h1 => ?_⟩
  · simp [BodyReader.poll_read_underlying, BodyReader.source_step, hfin, hlo,
      h1, readSyncItems, finishStep]
  · simp [BodyReader.poll_read_underlying, BodyReader.source_step, hfin, hlo,
      h1, readSyncItems, finishStep, hne]
  · simp [BodyReader.poll_read_underlying, BodyReader.source_step, hfin, hlo,
      h1, readItems, finishStep]
  · simp [BodyReader.poll_read_underlying, BodyReader.source_step, hfin, hlo,
      h1, readItems, finishStep]
  · simp [BodyReader.poll_read_underlying, BodyReader.source_step, hfin, hlo,
      h1, finishStep]

/-- C6 witness: a would-block failure from a synchronous source
panics. -/
theorem C6_error_propagation_witness :
    (({ imp := .requestRead [.fail .wouldBlock], prebuffer_to := 0,
        buffer := [], consumed := 0, h2_leftover_bytes := none,
        is_finished := false, hasBw := false, bwLog := [],
        creditLog := [] } : BodyReader).poll_read_underlying 4).1
      = .panicked := by
  rw [(C6_error_propagation _ 4 (.other 9) [] [] rfl rfl).1 rfl]


/-- C8: consume advances the cursor by exactly the requested amount and
asserts afterwards, panicking exactly when the amount exceeds the
unconsumed length; under the cursor-within-buffer precondition the
invariant consumed ≤ buffer length is preserved by a successful consume
and by every other reader operation. -/
theorem C8_consume_contract (s : BodyReader) (amt b k : Nat) (sched : List Nat)
    (hcon : s.consumed ≤ s.buffer.length) :
    ((s.consume amt).1 = .ok () ↔ amt ≤ s.unconsumed_len)
    ∧ ((s.consume amt).1 = .panicked ↔ s.unconsumed_len < amt)
    ∧ (s.consume amt).2.consumed = s.consumed + amt
    ∧ (amt ≤ s.unconsumed_len →
        (s.consume amt).2.consumed ≤ (s.consume amt).2.buffer.length)
    ∧ (s.poll_read b sched).2.consumed ≤ (s.poll_read b sched).2.buffer.length
    ∧ (s.poll_refill_buf sched).2.consumed
        ≤ (s.poll_refill_buf sched).2.buffer.length
    ∧ (s.poll_read_underlying k).2.consumed
        ≤ (s.poll_read_underlying k).2.buffer.length
    ∧ (s.poll_fill_buf sched).2.consumed
        ≤ (s.poll_fill_buf sched).2.buffer.length := by
  have hc : s.consume amt
      = (if s.consumed + amt ≤ s.buffer.length then (.ok () : Outcome Unit)
         else .panicked,
         { s with consumed := s.consumed + amt }) := by
    simp only [BodyReader.consume]
    split
    · rfl
    · rfl
  refine ⟨?_, ?_, ?_, ?_, poll_read_inv s b sched hcon,
    (poll_refill_buf_facts s sched).2.1, ?_, ?_⟩
  · rw [hc]
    dsimp only
    by_cases hle : s.consumed + amt ≤ s.buffer.length
    · rw [if_pos hle]
      simp only [BodyReader.unconsumed_len]
      constructor
      · intro _
        omega
      · intro _
        trivial
    · rw [if_neg hle]
      simp only [BodyReader.unconsumed_len]
      constructor
      · intro hx
        exact absurd hx (by simp)
      · intro hx
        exact absurd hx (by omega)
  · rw [hc]
    dsimp only
    by_cases hle : s.consumed + amt ≤ s.buffer.length
    · rw [if_pos hle]
      simp only [BodyReader.unconsumed_len]
      constructor
      · intro hx
        exact absurd hx (by simp)
      · intro hx
        exact absurd hx (by omega)
    · rw [if_neg hle]
      simp only [BodyReader.unconsumed_len]
      constructor
      · intro _
        omega
      · intro _
        trivial
  · rw [hc]
  · intro hle
    simp only [BodyReader.unconsumed_len] at hle
    rw [hc]
    dsimp only
    omega
  · obtain ⟨_, hbuf, hconu, _, _, _⟩ := poll_read_underlying_facts s k
    rw [hbuf, hconu]
    exact hcon
  · unfold BodyReader.poll_fill_buf
    have pcon := (poll_refill_buf_facts s sched).2.1
    rcases hp : s.poll_refill_buf sched with ⟨o, s1⟩
    rw [hp] at pcon
    dsimp only at pcon
    cases o <;> exact pcon

/-- C8 witness: consuming one of two buffered bytes succeeds and keeps
the invariant. -/
theorem C8_consume_contract_witness :
    (({ imp := .requestEmpty, prebuffer_to := 0, buffer := [1, 2],
        consumed := 0, h2_leftover_bytes := none, is_finished := false,
        hasBw := false, bwLog := [], creditLog := [] }
        : BodyReader).consume 1).1 = .ok () :=
  (C8_consume_contract
    { imp := .requestEmpty, prebuffer_to := 0, buffer := [1, 2],
      consumed := 0, h2_leftover_bytes := none, is_finished := false,
      hasBw := false, bwLog := [], creditLog := [] }
    1 1 1 [1] (by decide)).1.mpr (by decide)

/-- C1 witness: a three-byte synchronous body drained by 2-byte reads
delivers exactly the source bytes. -/
theorem C1_byte_stream_conservation_witness :
    ((BodyReader.new (.requestRead [.chunk [1, 2, 3]]) false).runReads
        [(2, [5]), (2, [5]), (2, [5])]).1 = [1, 2, 3] :=
  (C1_byte_stream_conservation (.requestRead [.chunk [1, 2, 3]]) false
      [(2, [5]), (2, [5]), (2, [5])]).2
    (by simp [BodyReader.runReads, BodyReader.poll_read,
      BodyReader.read_from_buffer, BodyReader.consume,
      BodyReader.poll_refill_buf, BodyReader.refill_loop,
      BodyReader.poll_read_underlying, BodyReader.source_step,
      BodyReader.unconsumed, BodyReader.unconsumed_len, BodyReader.new,
      BodyReader.pendingBytes, readSyncItems, finishStep, deliveredL,
      leftoverBytes, BodyImpl.remainingBytes, syncItemsBytes,
      H2BytesReader.read, H2BytesReader.len])

/-- C3 witness: a read served from a retained leftover chunk releases no
further credit. -/
theorem C3_flow_credit_exact_witness :
    (({ imp := .http2 [], prebuffer_to := 0, buffer := [], consumed := 0,
        h2_leftover_bytes := some ⟨[5, 6], 1⟩, is_finished := false,
        hasBw := false, bwLog := [], creditLog := [2] }
        : BodyReader).poll_read_underlying 1).2.creditLog = [2] :=
  ((C3_flow_credit_exact [] false []
    { imp := .http2 [], prebuffer_to := 0, buffer := [], consumed := 0,
      h2_leftover_bytes := some ⟨[5, 6], 1⟩, is_finished := false,
      hasBw := false, bwLog := [], creditLog := [2] }
    1).2.2 rfl ⟨[5, 6], 1⟩ rfl).1

end HreqBody
